import Mathlib

/-!
# A verification model of the `cache-lite` Rust crate

This file gives a shallow embedding, in Lean 4, of the core of the
`cache-lite` library (`src/config.rs`, `src/error.rs`, `src/object.rs`,
`src/cache.rs`), together with theorems settling the specification
claims about it.

Modelling conventions:

* Rust `&str` / `String` values are modelled as their UTF-8 byte
  sequences, `List Nat` (a Rust `String` *is* a `Vec<u8>` that is valid
  UTF-8; `std::fs::write`/`read_to_string` operate on exactly those
  bytes).  ASCII-only operations such as `contains("..")`,
  `contains('/')` and `len()` are therefore byte-level, matching Rust's
  byte-level `str::len` and substring search.
* The filesystem is a value `FS`: a finite map from paths to file
  contents, together with environment oracles giving the outcome
  (success, or an I/O error message) of `remove_file` and `fs::write`
  at each path.  Fallible filesystem code returns `Except CacheError`.
* `serde_json` parsing, `chrono` time formatting, `dirs::home_dir` and
  `create_dir_all` are external to the crate; their outcomes are inputs
  to the model (an `Except` parse outcome, and the `Env` structure).
* The target platform is Linux (`cfg!(windows) = false`,
  `std::path::MAIN_SEPARATOR = '/'`), the platform the claims address.
* The `u32` id counter is modelled as a `Nat` reduced modulo `2^32`.
* `created_at : SystemTime` (wall-clock time) is not modelled; no claim
  refers to it.
-/

namespace CacheLite

/-- UTF-8 encoding of one Unicode scalar value, as its byte list. -/
def charUtf8 (c : Char) : List Nat :=
  let n := c.toNat
  if n < 128 then [n]
  else if n < 2048 then [192 + n / 64, 128 + n % 64]
  else if n < 65536 then [224 + n / 4096, 128 + n / 64 % 64, 128 + n % 64]
  else [240 + n / 262144, 128 + n / 4096 % 64, 128 + n / 64 % 64, 128 + n % 64]

/-- The UTF-8 bytes of a Lean string literal; used to transcribe the
Rust string literals of the source. -/
def bytes (s : String) : List Nat :=
  s.data.flatMap charUtf8

/-- `leadsWith pat s` holds when `pat` is a prefix of the byte list `s`
(Rust `str::starts_with` at byte level). -/
def leadsWith : List Nat → List Nat → Bool
  | [], _ => true
  | _ :: _, [] => false
  | p :: ps, c :: cs => p = c && leadsWith ps cs

/-- `hasSub s pat` holds when `pat` occurs as a contiguous byte
subsequence of `s` (Rust `str::contains` for a literal pattern). -/
def hasSub (s pat : List Nat) : Bool :=
  match s with
  | [] => pat.isEmpty
  | _ :: t => leadsWith pat s || hasSub t pat

/-- Worker for `replaceAll`, consuming one subject byte per step so the
recursion is structural (hence kernel-computable).  The first numeric
argument counts bytes still to skip because they belong to a pattern
occurrence that has already been replaced. -/
def replaceAllGo (pat rep : List Nat) : Nat → List Nat → List Nat
  | _, [] => []
  | skip + 1, _ :: t => replaceAllGo pat rep skip t
  | 0, c :: t =>
    if leadsWith pat (c :: t) then
      rep ++ replaceAllGo pat rep (pat.length - 1) t
    else
      c :: replaceAllGo pat rep 0 t

/-- Rust `str::replace`: replace every non-overlapping occurrence of
`pat` in `s` by `rep`, scanning left to right.  The source only ever
calls this with the non-empty literal patterns `"{name}"`, `"{id}"`,
`"{time}"`, so the empty-pattern branch is never exercised. -/
def replaceAll (s pat rep : List Nat) : List Nat :=
  if pat.isEmpty then s else replaceAllGo pat rep 0 s

/-- Rust `Vec::join(sep)` on byte strings. -/
def joinSep (sep : List Nat) : List (List Nat) → List Nat
  | [] => []
  | [x] => x
  | x :: y :: t => x ++ sep ++ joinSep sep (y :: t)

/-- Rust `u32::to_string()`, as UTF-8 bytes. -/
def natBytes (n : Nat) : List Nat :=
  bytes (Nat.repr n)

/-! ## UTF-8 validation (the check done by `std::fs::read_to_string`)

A standard 8-state DFA over bytes: state `0` is the start/accept state,
states `1`–`3` expect that many ordinary continuation bytes, and states
`4`–`7` encode the constrained second bytes after `E0`, `ED`, `F0`,
`F4` (excluding overlong forms and surrogates). -/

/-- One DFA transition; `none` means the byte sequence is invalid. -/
def utf8Step (st b : Nat) : Option Nat :=
  if st = 0 then
    if b ≤ 127 then some 0
    else if 194 ≤ b ∧ b ≤ 223 then some 1
    else if b = 224 then some 4
    else if (225 ≤ b ∧ b ≤ 236) ∨ b = 238 ∨ b = 239 then some 2
    else if b = 237 then some 5
    else if b = 240 then some 6
    else if 241 ≤ b ∧ b ≤ 243 then some 3
    else if b = 244 then some 7
    else none
  else if st = 1 then if 128 ≤ b ∧ b ≤ 191 then some 0 else none
  else if st = 2 then if 128 ≤ b ∧ b ≤ 191 then some 1 else none
  else if st = 3 then if 128 ≤ b ∧ b ≤ 191 then some 2 else none
  else if st = 4 then if 160 ≤ b ∧ b ≤ 191 then some 1 else none
  else if st = 5 then if 128 ≤ b ∧ b ≤ 159 then some 1 else none
  else if st = 6 then if 144 ≤ b ∧ b ≤ 191 then some 2 else none
  else if st = 7 then if 128 ≤ b ∧ b ≤ 143 then some 2 else none
  else none

/-- Run the UTF-8 DFA from a state over a byte list. -/
def utf8Run (st : Nat) : List Nat → Bool
  | [] => st = 0
  | b :: r =>
    match utf8Step st b with
    | some st' => utf8Run st' r
    | none => false

/-- `utf8Valid l` holds when `l` is a valid UTF-8 byte sequence; this is
the validation `std::fs::read_to_string` performs. -/
def utf8Valid (l : List Nat) : Bool :=
  utf8Run 0 l

/-! ## Association-list registry operations

`HashMap<String, CacheObject>` is modelled as an association list with
at most one binding per key; `insertReg` maintains that invariant the
way `HashMap::insert` does (one binding per key at all times). -/

/-- `HashMap::get`. -/
def lookupReg {α : Type} (k : List Nat) : List (List Nat × α) → Option α
  | [] => none
  | (k', v) :: t => if k' = k then some v else lookupReg k t

/-- Remove every binding of key `k` (`HashMap::remove`'s effect on the
map). -/
def eraseReg {α : Type} (k : List Nat) (m : List (List Nat × α)) :
    List (List Nat × α) :=
  m.filter (fun x => decide (x.1 ≠ k))

/-- `HashMap::insert`: afterwards the key is bound exactly once, to the
new value. -/
def insertReg {α : Type} (k : List Nat) (v : α) (m : List (List Nat × α)) :
    List (List Nat × α) :=
  (k, v) :: eraseReg k m

/-- Number of bindings of key `k`. -/
def countKey {α : Type} (k : List Nat) (m : List (List Nat × α)) : Nat :=
  (m.filter (fun x => decide (x.1 = k))).length

/-! ## `src/error.rs` — the `CacheError` enum -/

/-- `CacheError` from `src/error.rs`.  The `Io` variant carries the
`Display` rendering of the underlying `std::io::Error`. -/
inductive CacheError : Type
  | io (msg : List Nat)
  | invalidName (msg : List Nat)
  | configParse (msg : List Nat)
  | notFound (msg : List Nat)
  | permissionDenied (msg : List Nat)
  | alreadyExists (msg : List Nat)
  | expired (msg : List Nat)
  | invalidConfig (msg : List Nat)
  | serialization (msg : List Nat)
  | invalidPath (msg : List Nat)
  | symlinkDetected (msg : List Nat)
  | sizeLimitExceeded (msg : List Nat)
  | fileCountLimitExceeded (msg : List Nat)
  | corrupted (msg : List Nat)
  | generic (msg : List Nat)
  deriving DecidableEq, Repr

/-- The `Display` implementation of `CacheError` (`impl fmt::Display`). -/
def CacheError.display : CacheError → List Nat
  | .io m => bytes "I/O error: " ++ m
  | .invalidName m => bytes "Invalid cache name: " ++ m
  | .configParse m => bytes "Configuration parse error: " ++ m
  | .notFound m => bytes "Cache not found: " ++ m
  | .permissionDenied m => bytes "Permission denied: " ++ m
  | .alreadyExists m => bytes "Cache already exists: " ++ m
  | .expired m => bytes "Cache expired: " ++ m
  | .invalidConfig m => bytes "Invalid configuration: " ++ m
  | .serialization m => bytes "Serialization error: " ++ m
  | .invalidPath m => bytes "Invalid path: " ++ m
  | .symlinkDetected m => bytes "Symbolic link detected: " ++ m
  | .sizeLimitExceeded m => bytes "Cache size limit exceeded: " ++ m
  | .fileCountLimitExceeded m => bytes "Cache file count limit exceeded: " ++ m
  | .corrupted m => bytes "Cache corrupted: " ++ m
  | .generic m => bytes "Error: " ++ m

/-! ## `src/config.rs` — configuration structures -/

/-- `CachePathConfig`: platform-specific path configuration. -/
structure CachePathConfig : Type where
  windows : List Nat
  linux : List Nat
  deriving DecidableEq, Repr

/-- `CacheFormatConfig`: file naming format configuration. -/
structure CacheFormatConfig : Type where
  filename : List Nat
  time : List Nat
  deriving DecidableEq, Repr

/-- `CacheConfig`: main configuration structure. -/
structure CacheConfig : Type where
  path : CachePathConfig
  format : CacheFormatConfig
  deriving DecidableEq, Repr

/-- `CacheConfig::default()` from `src/config.rs`. -/
def CacheConfig.default : CacheConfig :=
  { path := { windows := bytes "%temp%/Rust/Cache"
              linux := bytes "/tmp/Rust/Cache" }
    format := { filename := bytes "r{name}.{time}.cache"
                time := bytes "%Y+%m+%d-%H+%M+%S" } }

/-- `CacheConfig::new(json_config)` from `src/config.rs` (lines 76–80).
The `serde_json::from_str` call is external; its outcome (parsed
configuration, or the `Display` rendering of the serde error) is the
input to the model.  The source reads
`serde_json::from_str(json_config).unwrap_or_else(|_| Self::default())`:
a parse failure is swallowed and the default configuration returned. -/
def CacheConfig.new (parsed : Except (List Nat) CacheConfig) : CacheConfig :=
  match parsed with
  | .ok c => c
  | .error _ => CacheConfig.default

/-! ## Filesystem model -/

/-- The filesystem: a finite map from paths to file contents (both as
byte strings), plus environment oracles fixing the outcome of the
fallible syscalls `std::fs::remove_file` and `std::fs::write` at each
path (`none` = success, `some msg` = failure with that I/O error
message).  Directories are not tracked: `create_dir_all` (whose outcome
is an `Env` oracle) creates only directories, never files. -/
structure FS : Type where
  files : List (List Nat × List Nat)
  removeResult : List Nat → Option (List Nat)
  writeResult : List Nat → Option (List Nat)

/-- Content of the regular file at `p`, if one exists. -/
def lookupFile (fs : FS) (p : List Nat) : Option (List Nat) :=
  lookupReg p fs.files

/-- Ambient process environment used by `Cache::create`: the outcome of
`create_dir_all` per directory path, the `chrono` rendering
`time_format(SystemTime::now(), fmt)` of the current instant per format
string, and `dirs::home_dir()`. -/
structure Env : Type where
  mkdirResult : List Nat → Option (List Nat)
  formatTime : List Nat → List Nat
  home : Option (List Nat)

/-! ## `src/object.rs` — `CacheObject` -/

/-- `CacheObject` (without the unmodelled wall-clock `created_at`). -/
structure CacheObject : Type where
  name : List Nat
  path : List Nat
  id : Nat
  deriving DecidableEq, Repr

/-- `CacheObject::exists()`: `self.path.exists()`. -/
def CacheObject.fileExists (o : CacheObject) (fs : FS) : Bool :=
  (lookupFile fs o.path).isSome

/-- `CacheObject::get_string()`: `std::fs::read_to_string(&self.path)`,
which fails when the file is absent or its contents are not valid
UTF-8. -/
def CacheObject.get_string (o : CacheObject) (fs : FS) :
    Except CacheError (List Nat) :=
  match lookupFile fs o.path with
  | some c =>
    if utf8Valid c then .ok c
    else .error (.io (bytes "stream did not contain valid UTF-8"))
  | none => .error (.io (bytes "No such file or directory (os error 2)"))

/-- `CacheObject::write_string(content)`:
`std::fs::write(&self.path, content)`, writing the string's UTF-8
bytes, creating or truncating the file. -/
def CacheObject.write_string (o : CacheObject) (fs : FS) (content : List Nat) :
    Except CacheError FS :=
  match fs.writeResult o.path with
  | some msg => .error (.io msg)
  | none => .ok { fs with files := insertReg o.path content fs.files }

/-- `CacheObject::write_bytes(content)`:
`std::fs::write(&self.path, content)`. -/
def CacheObject.write_bytes (o : CacheObject) (fs : FS) (content : List Nat) :
    Except CacheError FS :=
  match fs.writeResult o.path with
  | some msg => .error (.io msg)
  | none => .ok { fs with files := insertReg o.path content fs.files }

/-- `CacheObject::get_bytes()`: `std::fs::read(&self.path)`. -/
def CacheObject.get_bytes (o : CacheObject) (fs : FS) :
    Except CacheError (List Nat) :=
  match lookupFile fs o.path with
  | some c => .ok c
  | none => .error (.io (bytes "No such file or directory (os error 2)"))

/-- `CacheObject::delete()` (`src/object.rs` lines 147–153): if the
backing file exists, `remove_file` it, propagating an I/O failure;
otherwise do nothing and succeed. -/
def CacheObject.delete (o : CacheObject) (fs : FS) : Except CacheError FS :=
  if o.fileExists fs then
    match fs.removeResult o.path with
    | some msg => .error (.io msg)
    | none => .ok { fs with files := eraseReg o.path fs.files }
  else .ok fs

/-! ## `src/cache.rs` — the `Cache` manager -/

/-- `validate_name` from `src/cache.rs` (lines 295–334), the validator
`Cache::create` actually calls, on a non-Windows platform
(`std::path::MAIN_SEPARATOR = '/'`, so the separator check repeats the
`'/'` check; the `#[cfg(windows)]` reserved-name block is inactive).
Byte values: `'.' = 46`, `'/' = 47`, `'\\' = 92`.  Note the file
`src/utils.rs` contains a second, richer `validate_name` (null-byte and
control-character checks), but `lib.rs` declares no `mod utils`, so
that code is not part of the crate and is not what `create` runs. -/
def validateName (name : List Nat) : Except CacheError Unit :=
  if name.isEmpty then
    .error (.invalidName (bytes "Cache name cannot be empty"))
  else if hasSub name (bytes "..") || name.contains 47 ||
      name.contains 47 || name.contains 92 then
    .error (.invalidName (bytes "Invalid cache name: contains path components"))
  else if name.length > 255 then
    .error (.invalidName (bytes "Cache name too long (max 255 characters)"))
  else
    .ok ()

/-- Detects a C1 control character (U+0080–U+009F) in a UTF-8 byte
string: the byte `0xC2 = 194` followed by a byte in `0x80`–`0x9F`. -/
def hasC1Pair : List Nat → Bool
  | 194 :: b :: t => (128 ≤ b && b ≤ 159) || hasC1Pair (b :: t)
  | _ :: t => hasC1Pair t
  | [] => false

/-- Modelled from the spec: the acceptance condition the claim asserts
for the name validation used by `create` on a non-Windows platform —
non-empty, at most 255 bytes, no null byte, no `".."`, no `'/'` (also
the platform separator) or `'\\'`, and no control character
(`char::is_control`: the C0 range `U+0000`–`U+001F`, `U+007F`, and the
C1 range `U+0080`–`U+009F`, the latter appearing in UTF-8 as `0xC2`
followed by `0x80`–`0x9F`). -/
def specValidName (name : List Nat) : Bool :=
  !name.isEmpty && name.length ≤ 255 && !name.contains 0 &&
  !hasSub name (bytes "..") && !name.contains 47 && !name.contains 92 &&
  !(name.any fun b => b < 32 || b = 127) && !hasC1Pair name

/-- `Cache::expand_path` on Linux: `cfg!(windows)` is false, so the
`%var%` expansion and backslash normalization are skipped; a leading
`'~' = 126` is replaced by the home directory when one is available. -/
def expandPath (env : Env) (path : List Nat) : List Nat :=
  match path with
  | 126 :: rest =>
    match env.home with
    | some h => h ++ rest
    | none => 126 :: rest
  | _ => path

/-- `PathBuf::join` on Unix: an absolute component replaces the base;
otherwise the component is appended after a separator (which is not
doubled after a trailing slash or an empty base). -/
def joinPath (base comp : List Nat) : List Nat :=
  if comp.head? = some 47 then comp
  else if base.isEmpty then comp
  else if base.getLast? = some 47 then base ++ comp
  else base ++ 47 :: comp

/-- `Path::parent` (approximated: the bytes before the last `'/'`, with
`none` for the empty path and the root).  It is only ever fed to the
`create_dir_all` outcome oracle, so the claims are insensitive to its
edge cases. -/
def parentDir (p : List Nat) : Option (List Nat) :=
  if p = [] ∨ p = [47] then none
  else some (((p.reverse.dropWhile (fun b => decide (b ≠ 47))).drop 1).reverse)

/-- Lines 118–122 of `src/cache.rs`: `if let Some(parent) =
full_path.parent() { create_dir_all(parent) … }`.  The result is the
outcome of the `create_dir_all` call (`none` = success, also when there
is no parent to create). -/
def mkdirAt (env : Env) (fullPath : List Nat) : Option (List Nat) :=
  match parentDir fullPath with
  | some parent => env.mkdirResult parent
  | none => none

/-- The `Cache` manager: configuration, the name registry
(`HashMap<String, CacheObject>`), and the `u32` `next_id` counter. -/
structure Cache : Type where
  config : CacheConfig
  objects : List (List Nat × CacheObject)
  nextId : Nat

/-- `Cache::new(config)` (`src/cache.rs` lines 54–60): empty registry,
counter starting at 1. -/
def Cache.new (config : CacheConfig) : Cache :=
  { config := config, objects := [], nextId := 1 }

/-- The configuration merge done inside `Cache::create`
(`src/cache.rs` lines 81–93): each of the four leaf fields of the
override replaces the base field only when the override field is
non-empty. -/
def mergeConfig (base custom : CacheConfig) : CacheConfig :=
  { path :=
      { windows := if custom.path.windows.isEmpty then base.path.windows
                   else custom.path.windows
        linux := if custom.path.linux.isEmpty then base.path.linux
                 else custom.path.linux }
    format :=
      { filename := if custom.format.filename.isEmpty then base.format.filename
                    else custom.format.filename
        time := if custom.format.time.isEmpty then base.format.time
                else custom.format.time } }

/-- `Cache::create(name, custom_config)` (`src/cache.rs` lines 70–133)
on Linux.  `custom_config` is modelled as the outcome of
`serde_json::from_str::<CacheConfig>` on the supplied JSON (`none` when
no override was passed).  Steps, in source order: validate the name
(returning its error before touching any state); read and increment
`next_id` (a `u32`, hence mod `2^32`); merge the override, turning a
parse failure into `ConfigParse`; expand the Linux base path;
substitute `{name}`, `{id}`, `{time}` into the filename template; join;
`create_dir_all` the parent directory, a failure becoming
`InvalidPath`; construct the object and insert it into the registry
(overwriting any entry under that name).  The file map is untouched. -/
def Cache.create (st : Cache) (name : List Nat)
    (customConfig : Option (Except (List Nat) CacheConfig)) (env : Env)
    (fs : FS) : Except CacheError CacheObject × Cache × FS :=
  match validateName name with
  | .error e => (.error e, st, fs)
  | .ok _ =>
    let id := st.nextId
    let st1 : Cache := { st with nextId := (st.nextId + 1) % 4294967296 }
    let mergedE : Except CacheError CacheConfig :=
      match customConfig with
      | none => .ok st.config
      | some (.ok custom) => .ok (mergeConfig st.config custom)
      | some (.error e) => .error (.configParse e)
    match mergedE with
    | .error e => (.error e, st1, fs)
    | .ok merged =>
      let cachePath := expandPath env merged.path.linux
      let filename :=
        replaceAll
          (replaceAll
            (replaceAll merged.format.filename (bytes "{name}") name)
            (bytes "{id}") (natBytes id))
          (bytes "{time}") (env.formatTime merged.format.time)
      let fullPath := joinPath cachePath filename
      match mkdirAt env fullPath with
      | some msg =>
        (.error (.invalidPath (bytes "Failed to create cache directory: " ++ msg)),
          st1, fs)
      | none =>
        let obj : CacheObject := { name := name, path := fullPath, id := id }
        (.ok obj, { st1 with objects := insertReg name obj st1.objects }, fs)

/-- `Cache::get(name)` (`src/cache.rs` lines 191–195). -/
def Cache.get (st : Cache) (name : List Nat) : Except CacheError CacheObject :=
  match lookupReg name st.objects with
  | some o => .ok o
  | none =>
    .error (.notFound (bytes "Cache object '" ++ name ++ bytes "' not found"))

/-- `Cache::len()`. -/
def Cache.len (st : Cache) : Nat :=
  st.objects.length

/-- `Cache::remove(name)` (`src/cache.rs` lines 220–225):
`self.objects.remove(name)` takes the entry out of the registry first;
if there was one, `cache_obj.delete()?` then propagates a deletion
failure (the entry stays removed).  An unregistered name is a no-op
returning `Ok(())`. -/
def Cache.remove (st : Cache) (name : List Nat) (fs : FS) :
    Except CacheError Unit × Cache × FS :=
  match lookupReg name st.objects with
  | some o =>
    let st1 : Cache := { st with objects := eraseReg name st.objects }
    match o.delete fs with
    | .error e => (.error e, st1, fs)
    | .ok fs' => (.ok (), st1, fs')
  | none => (.ok (), st, fs)

/-- The `for (name, cache_obj) in &self.objects` loop of
`Cache::clear`: attempt every deletion, collecting the formatted
failure messages in iteration order (the `HashMap` iteration order is
arbitrary; the model iterates the registry list in order — every
property proved about `clear` is order-insensitive). -/
def clearLoop (entries : List (List Nat × CacheObject)) (fs : FS) :
    List (List Nat) × FS :=
  match entries with
  | [] => ([], fs)
  | (n, o) :: t =>
    match o.delete fs with
    | .error e =>
      let r := clearLoop t fs
      ((bytes "Failed to delete cache object '" ++ n ++ bytes "': " ++
        CacheError.display e) :: r.1, r.2)
    | .ok fs1 => clearLoop t fs1

/-- `Cache::clear()` (`src/cache.rs` lines 242–261): attempt to delete
every entry's backing file, clear the registry unconditionally, and
fail with one aggregate `Generic` error joining the collected messages
with `"; "` when any deletion failed. -/
def Cache.clear (st : Cache) (fs : FS) : Except CacheError Unit × Cache × FS :=
  let r := clearLoop st.objects fs
  let st1 : Cache := { st with objects := [] }
  if r.1.isEmpty then (.ok (), st1, r.2)
  else
    (.error (.generic (bytes "Errors occurred while clearing cache: " ++
      joinSep (bytes "; ") r.1)), st1, r.2)

/-! ## Registry lemmas -/

theorem isSome_false_eq_none {α : Type} {x : Option α} (h : x.isSome = false) :
    x = none := by
  cases x with
  | none => rfl
  | some v => simp at h

theorem lookupReg_insertReg_self {α : Type} (k : List Nat) (v : α)
    (m : List (List Nat × α)) : lookupReg k (insertReg k v m) = some v := by
  simp [insertReg, lookupReg]

theorem countKey_eraseReg_self {α : Type} (k : List Nat)
    (m : List (List Nat × α)) : countKey k (eraseReg k m) = 0 := by
  rw [countKey, List.length_eq_zero, List.filter_eq_nil_iff]
  intro a ha
  have hmem := List.mem_filter.mp ha
  simp only [decide_eq_true_eq] at hmem ⊢
  exact hmem.2

theorem countKey_insertReg_self {α : Type} (k : List Nat) (v : α)
    (m : List (List Nat × α)) : countKey k (insertReg k v m) = 1 := by
  have h0 := countKey_eraseReg_self k m
  rw [countKey] at h0
  rw [insertReg, countKey, List.filter_cons, if_pos (by simp),
    List.length_cons, h0]

theorem lookupReg_eraseReg_self {α : Type} (k : List Nat)
    (m : List (List Nat × α)) : lookupReg k (eraseReg k m) = none := by
  induction m with
  | nil => rfl
  | cons x t ih =>
    obtain ⟨a, v⟩ := x
    simp only [eraseReg, List.filter_cons] at ih ⊢
    by_cases h1 : a = k
    · rw [if_neg (by simp [h1])]
      exact ih
    · rw [if_pos (by simpa using h1)]
      simp only [lookupReg]
      rw [if_neg h1]
      exact ih

theorem lookupReg_eraseReg_ne {α : Type} {q k : List Nat} (h : q ≠ k)
    (m : List (List Nat × α)) : lookupReg k (eraseReg q m) = lookupReg k m := by
  induction m with
  | nil => rfl
  | cons x t ih =>
    obtain ⟨a, v⟩ := x
    simp only [eraseReg, List.filter_cons] at ih ⊢
    by_cases h1 : a = q
    · rw [if_neg (by simp [h1])]
      rw [ih]
      have h2 : ¬a = k := by rw [h1]; exact h
      simp only [lookupReg]
      rw [if_neg h2]
    · rw [if_pos (by simpa using h1)]
      simp only [lookupReg]
      by_cases h2 : a = k
      · rw [if_pos h2, if_pos h2]
      · rw [if_neg h2, if_neg h2]
        exact ih

theorem lookupReg_erase_of_none {α : Type} {fsm : List (List Nat × α)}
    {q p : List Nat} (h : lookupReg p fsm = none) :
    lookupReg p (eraseReg q fsm) = none := by
  by_cases hqp : q = p
  · subst hqp; exact lookupReg_eraseReg_self q fsm
  · rw [lookupReg_eraseReg_ne hqp]; exact h

/-! ## `clear`-loop lemmas -/

theorem delete_cases (o : CacheObject) (fs : FS) :
    (o.fileExists fs = false ∧ o.delete fs = .ok fs) ∨
    (o.fileExists fs = true ∧ ∃ msg, fs.removeResult o.path = some msg ∧
      o.delete fs = .error (.io msg)) ∨
    (o.fileExists fs = true ∧ fs.removeResult o.path = none ∧
      o.delete fs = .ok { fs with files := eraseReg o.path fs.files }) := by
  cases he : o.fileExists fs
  · exact Or.inl ⟨rfl, by simp [CacheObject.delete, he]⟩
  · cases hr : fs.removeResult o.path with
    | some msg =>
      exact Or.inr (Or.inl ⟨rfl, msg, rfl, by simp [CacheObject.delete, he, hr]⟩)
    | none =>
      exact Or.inr (Or.inr ⟨rfl, rfl, by simp [CacheObject.delete, he, hr]⟩)

theorem clearLoop_preserves_none :
    ∀ (entries : List (List Nat × CacheObject)) (fs : FS) (p : List Nat),
      lookupFile fs p = none → lookupFile (clearLoop entries fs).2 p = none := by
  intro entries
  induction entries with
  | nil => intro fs p h; exact h
  | cons x t ih =>
    intro fs p h
    obtain ⟨n, o⟩ := x
    rcases delete_cases o fs with ⟨_, hd⟩ | ⟨_, msg, _, hd⟩ | ⟨_, _, hd⟩ <;>
      simp only [clearLoop, hd]
    · exact ih fs p h
    · exact ih fs p h
    · exact ih _ p (lookupReg_erase_of_none h)

theorem clearLoop_removeResult :
    ∀ (entries : List (List Nat × CacheObject)) (fs : FS),
      (clearLoop entries fs).2.removeResult = fs.removeResult := by
  intro entries
  induction entries with
  | nil => intro fs; rfl
  | cons x t ih =>
    intro fs
    obtain ⟨n, o⟩ := x
    rcases delete_cases o fs with ⟨_, hd⟩ | ⟨_, msg, _, hd⟩ | ⟨_, _, hd⟩ <;>
      simp only [clearLoop, hd] <;> exact ih _

theorem clearLoop_nil_iff :
    ∀ (entries : List (List Nat × CacheObject)) (fs : FS),
      (clearLoop entries fs).1 = [] ↔
        ∀ x ∈ entries,
          fs.removeResult x.2.path = none ∨ lookupFile fs x.2.path = none := by
  intro entries
  induction entries with
  | nil => intro fs; simp [clearLoop]
  | cons x t ih =>
    intro fs
    obtain ⟨n, o⟩ := x
    rcases delete_cases o fs with ⟨he, hd⟩ | ⟨he, msg, hr, hd⟩ | ⟨he, hr, hd⟩
    · -- file absent: delete is a no-op success
      simp only [clearLoop, hd, List.mem_cons]
      rw [ih fs]
      constructor
      · intro hall y hy
        rcases hy with hy | hy
        · subst hy
          exact Or.inr (isSome_false_eq_none he)
        · exact hall y hy
      · intro hall y hy
        exact hall y (Or.inr hy)
    · -- file present and removal fails: an error is collected
      simp only [clearLoop, hd, List.mem_cons]
      constructor
      · intro habs; exact absurd habs (by simp)
      · intro hall
        rcases hall (n, o) (Or.inl rfl) with h1 | h1
        · rw [hr] at h1; exact absurd h1 (by simp)
        · rw [CacheObject.fileExists, h1] at he; exact absurd he (by simp)
    · -- file present and removal succeeds
      simp only [clearLoop, hd, List.mem_cons]
      rw [ih _]
      constructor
      · intro hall y hy
        rcases hy with hy | hy
        · subst hy; exact Or.inl hr
        · rcases hall y hy with h1 | h1
          · exact Or.inl h1
          · by_cases hp : o.path = y.2.path
            · exact Or.inl (hp ▸ hr)
            · refine Or.inr ?_
              have hne := lookupReg_eraseReg_ne hp fs.files
              simpa [lookupFile, hne] using h1
      · intro hall y hy
        rcases hall y (Or.inr hy) with h1 | h1
        · exact Or.inl h1
        · by_cases hp : o.path = y.2.path
          · refine Or.inr ?_
            show lookupReg y.2.path (eraseReg o.path fs.files) = none
            rw [← hp]
            exact lookupReg_eraseReg_self o.path fs.files
          · refine Or.inr ?_
            show lookupReg y.2.path (eraseReg o.path fs.files) = none
            rw [lookupReg_eraseReg_ne hp fs.files]
            exact h1

theorem clearLoop_attempted :
    ∀ (entries : List (List Nat × CacheObject)) (fs : FS)
      (x : List Nat × CacheObject), x ∈ entries →
      fs.removeResult x.2.path = none →
      lookupFile (clearLoop entries fs).2 x.2.path = none := by
  intro entries
  induction entries with
  | nil => intro fs x hx; exact absurd hx (by simp)
  | cons y t ih =>
    intro fs x hx hr
    obtain ⟨n, o⟩ := y
    rcases List.mem_cons.mp hx with hx | hx
    · -- x is the head entry
      subst hx
      rcases delete_cases o fs with ⟨he, hd⟩ | ⟨he, msg, hrs, hd⟩ | ⟨he, hrs, hd⟩
      · simp only [clearLoop, hd]
        exact clearLoop_preserves_none t fs _ (isSome_false_eq_none he)
      · rw [hrs] at hr; exact absurd hr (by simp)
      · simp only [clearLoop, hd]
        refine clearLoop_preserves_none t _ _ ?_
        simpa [lookupFile] using lookupReg_eraseReg_self o.path fs.files
    · -- x is in the tail
      rcases delete_cases o fs with ⟨he, hd⟩ | ⟨he, msg, hrs, hd⟩ | ⟨he, hrs, hd⟩ <;>
        simp only [clearLoop, hd]
      · exact ih fs x hx hr
      · exact ih fs x hx hr
      · exact ih _ x hx hr

/-! ## Miscellaneous lemmas -/

theorem validateName_error_shape (name : List Nat) (e : CacheError)
    (h : validateName name = .error e) : ∃ m, e = CacheError.invalidName m := by
  unfold validateName at h
  split_ifs at h <;> (injection h with h'; exact ⟨_, h'.symm⟩)

theorem mkdirAt_none {env : Env} (h : ∀ p, env.mkdirResult p = none)
    (fullPath : List Nat) : mkdirAt env fullPath = none := by
  unfold mkdirAt
  cases parentDir fullPath with
  | some parent => exact h parent
  | none => rfl

theorem if_isEmpty (a b : List Nat) :
    (if a.isEmpty then b else a) = if a = [] then b else a := by
  cases a <;> simp

/-! ## Concrete scenarios used by the witnesses and counterexamples -/

/-- A benign environment: directory creation always succeeds, the clock
renders as a fixed string, no home directory. -/
def envOk : Env :=
  { mkdirResult := fun _ => none
    formatTime := fun _ => bytes "20260101-000000"
    home := none }

/-- An empty filesystem on which every write and removal succeeds. -/
def fsOk : FS :=
  { files := []
    removeResult := fun _ => none
    writeResult := fun _ => none }

/-- A cache object used in the concrete scenarios. -/
def objA : CacheObject :=
  { name := bytes "a", path := bytes "/tmp/Rust/Cache/ra.cache", id := 1 }

/-- A filesystem holding `objA`'s backing file, on which `remove_file`
persistently fails (e.g. `EACCES` on the containing directory). -/
def fsStuck : FS :=
  { files := [(objA.path, bytes "x")]
    removeResult := fun _ => some (bytes "Permission denied (os error 13)")
    writeResult := fun _ => none }

/-- A filesystem holding `objA`'s backing file, fully operational. -/
def fsA : FS :=
  { files := [(objA.path, bytes "x")]
    removeResult := fun _ => none
    writeResult := fun _ => none }

/-- A manager that has registered `objA` under the name `"a"`. -/
def stA : Cache :=
  { config := CacheConfig.default
    objects := [(bytes "a", objA)]
    nextId := 2 }

/-- The filesystem after writing `"hi"` through `objA` on `fsOk`. -/
def fsW1 : FS :=
  { fsOk with files := insertReg objA.path (bytes "hi") fsOk.files }

/-! ## The claims -/

/-- C1: the claim says `CacheConfig::new` reports a malformed JSON
input as a typed configuration-parse error rather than silently
substituting the default configuration.  The shipped code
(`src/config.rs` lines 76–80) does the opposite —
`serde_json::from_str(json_config).unwrap_or_else(|_| Self::default())`
— even though the crate's own tests (`test_cache_config_invalid_json`,
which demands an error of kind `config_parse` from `CacheConfig::new`
on the input `"{invalid json"`, and `test_cache_config_new_or_default`,
which reserves the fallback for a separate `new_or_default`) and the
`examples/run.rs` example (`CacheConfig::new(...)?`) require the
claimed behaviour; the code is the slip.  This theorem evaluates the
modelled `CacheConfig.new` at a failed parse outcome (serde's error
rendering for `"{invalid json"`): the default configuration is
returned and no error is surfaced. -/
theorem c1_config_new_swallows_parse_error :
    CacheConfig.new
        (Except.error (bytes "key must be a string at line 1 column 2")) =
      CacheConfig.default := rfl

/-- C2 (amended): `Cache::remove(name)` with an unregistered name
succeeds (it never reports a not-found failure); with a registered name
it always removes the registry entry and attempts the backing-file
deletion, but a deletion failure is propagated as an error (the entry
stays removed), contrary to the claim that `remove` never fails on a
deletion error. -/
theorem c2_remove_behavior (st : Cache) (name : List Nat) (fs : FS) :
    (lookupReg name st.objects = none →
      Cache.remove st name fs = (.ok (), st, fs)) ∧
    (∀ o, lookupReg name st.objects = some o →
      (Cache.remove st name fs).2.1.objects = eraseReg name st.objects ∧
      (∀ e, o.delete fs = .error e →
        Cache.remove st name fs =
          (.error e, { st with objects := eraseReg name st.objects }, fs)) ∧
      (∀ fs', o.delete fs = .ok fs' →
        Cache.remove st name fs =
          (.ok (), { st with objects := eraseReg name st.objects }, fs'))) := by
  constructor
  · intro h
    simp only [Cache.remove, h]
  · intro o ho
    refine ⟨?_, ?_, ?_⟩
    · cases hd : o.delete fs <;> simp [Cache.remove, ho, hd]
    · intro e he
      simp only [Cache.remove, ho, he]
    · intro fs' hf
      simp only [Cache.remove, ho, hf]

/-- C2, counterexample: a registered object whose backing file exists
but cannot be removed.  `remove` returns the propagated I/O error —
the claim said a deletion failure can never make `remove` fail — while
the registry entry is nevertheless gone. -/
theorem c2_counterexample :
    (Cache.remove stA (bytes "a") fsStuck).1 =
      Except.error (.io (bytes "Permission denied (os error 13)")) ∧
    (Cache.remove stA (bytes "a") fsStuck).2.1.objects = [] := ⟨rfl, rfl⟩

/-- C2, witness: the amended theorem applied to the same concrete
scenario. -/
theorem c2_witness :
    Cache.remove stA (bytes "a") fsStuck =
      (Except.error (.io (bytes "Permission denied (os error 13)")),
        { stA with objects := eraseReg (bytes "a") stA.objects }, fsStuck) :=
  ((c2_remove_behavior stA (bytes "a") fsStuck).2 objA rfl).2.1
    (.io (bytes "Permission denied (os error 13)")) rfl

/-- C3 (amended): on a non-Windows platform the name validation that
`create` actually runs (`validate_name` in `src/cache.rs`) accepts a
name exactly when it is non-empty, contains no `".."`, no `'/'` (also
the platform separator) and no `'\\'`, and is at most 255 bytes long;
every rejection is an `InvalidName` error.  Contrary to the claim, null
bytes and control characters are not rejected (those checks exist only
in the dead file `src/utils.rs`, which no `mod` declaration pulls into
the crate). -/
theorem c3_validate_name_characterization (name : List Nat) :
    (validateName name = Except.ok () ↔
      (name ≠ [] ∧ hasSub name (bytes "..") = false ∧
        name.contains 47 = false ∧ name.contains 92 = false ∧
        name.length ≤ 255)) ∧
    (∀ e, validateName name = .error e →
      ∃ m, e = CacheError.invalidName m) := by
  constructor
  · unfold validateName
    split_ifs with h1 h2 h3
    · constructor
      · intro hok; exact absurd hok (by simp)
      · rintro ⟨hne, -⟩
        refine absurd ?_ hne
        cases name with
        | nil => rfl
        | cons a t => simp [List.isEmpty] at h1
    · constructor
      · intro hok; exact absurd hok (by simp)
      · rintro ⟨-, hs, h47, h92, -⟩
        simp only [Bool.or_eq_true] at h2
        rcases h2 with ((hx | hx) | hx) | hx <;> simp_all
    · constructor
      · intro hok; exact absurd hok (by simp)
      · rintro ⟨-, -, -, -, hlen⟩
        omega
    · constructor
      · intro _
        refine ⟨?_, ?_, ?_, ?_, ?_⟩
        · intro hn; subst hn; simp at h1
        · simp only [Bool.or_eq_true, not_or] at h2
          simpa using h2.1.1.1
        · simp only [Bool.or_eq_true, not_or] at h2
          simpa using h2.1.1.2
        · simp only [Bool.or_eq_true, not_or] at h2
          simpa using h2.2
        · omega
      · intro _; rfl
  · exact validateName_error_shape name

/-- C3, counterexample: the single null byte is a name the claim says
must be rejected (it contains a null byte and a control character), yet
the validator used by `create` accepts it. -/
theorem c3_counterexample :
    validateName [0] = Except.ok () ∧ specValidName [0] = false := ⟨rfl, rfl⟩

/-- C3, witness: the characterization applied to a concrete valid
name. -/
theorem c3_witness : validateName (bytes "cache1") = Except.ok () :=
  (c3_validate_name_characterization (bytes "cache1")).1.mpr
    ⟨by decide, by decide, by decide, by decide, by decide⟩

/-- C7: the merge `create` performs on an override configuration
replaces each of the four leaf fields exactly when the override's value
is non-empty, and keeps the base value when the override's value is
empty. -/
theorem c7_merge_semantics (base custom : CacheConfig) :
    (mergeConfig base custom).path.windows =
      (if custom.path.windows = [] then base.path.windows
       else custom.path.windows) ∧
    (mergeConfig base custom).path.linux =
      (if custom.path.linux = [] then base.path.linux
       else custom.path.linux) ∧
    (mergeConfig base custom).format.filename =
      (if custom.format.filename = [] then base.format.filename
       else custom.format.filename) ∧
    (mergeConfig base custom).format.time =
      (if custom.format.time = [] then base.format.time
       else custom.format.time) := by
  refine ⟨?_, ?_, ?_, ?_⟩ <;>
    simp only [mergeConfig] <;> rw [if_isEmpty]

/-- C8: write/read round trips on a cache object's backing file.  When
`write_string` succeeds, `get_string` returns exactly the written
string (its UTF-8 bytes, which — coming from a Rust `String` — pass
`read_to_string`'s validation); when `write_bytes` succeeds,
`get_bytes` returns exactly the written bytes.  Both hold for empty
content as well, since nothing in the proof constrains the lists. -/
theorem c8_roundtrip (o : CacheObject) (fs : FS) (s b : List Nat)
    (fs1 fs2 : FS) :
    (utf8Valid s = true → o.write_string fs s = .ok fs1 →
      o.get_string fs1 = .ok s) ∧
    (o.write_bytes fs b = .ok fs2 → o.get_bytes fs2 = .ok b) := by
  constructor
  · intro hv hw
    unfold CacheObject.write_string at hw
    cases hwr : fs.writeResult o.path with
    | some msg => rw [hwr] at hw; exact absurd hw (by simp)
    | none =>
      rw [hwr] at hw
      simp only [] at hw
      have hfs1 : fs1 = { fs with files := insertReg o.path s fs.files } := by
        injection hw with h'
        exact h'.symm
      subst hfs1
      unfold CacheObject.get_string
      have hl : lookupFile { fs with files := insertReg o.path s fs.files }
          o.path = some s := lookupReg_insertReg_self o.path s fs.files
      rw [hl]
      simp [hv]
  · intro hw
    unfold CacheObject.write_bytes at hw
    cases hwr : fs.writeResult o.path with
    | some msg => rw [hwr] at hw; exact absurd hw (by simp)
    | none =>
      rw [hwr] at hw
      simp only [] at hw
      have hfs2 : fs2 = { fs with files := insertReg o.path b fs.files } := by
        injection hw with h'
        exact h'.symm
      subst hfs2
      unfold CacheObject.get_bytes
      have hl : lookupFile { fs with files := insertReg o.path b fs.files }
          o.path = some b := lookupReg_insertReg_self o.path b fs.files
      rw [hl]

/-- C8, witness: writing `"hi"` on the benign filesystem and reading it
back. -/
theorem c8_witness : objA.get_string fsW1 = Except.ok (bytes "hi") :=
  (c8_roundtrip objA fsOk (bytes "hi") (bytes "hi") fsW1 fsW1).1
    (by decide) rfl

/-- C9 (amended): `delete()` succeeds without touching anything when
the backing file is absent, and after any successful `delete()` the
file is absent, so the next `delete()` also succeeds and `exists()` is
false.  The unconditional form of the claim is false: a `delete()`
whose `remove_file` fails leaves the file in place (see the
counterexample), so the second call can fail again and `exists()` stays
true. -/
theorem c9_delete_idempotent (o : CacheObject) (fs : FS) :
    (o.fileExists fs = false → o.delete fs = Except.ok fs) ∧
    (∀ fs', o.delete fs = Except.ok fs' →
      o.fileExists fs' = false ∧ o.delete fs' = Except.ok fs') := by
  constructor
  · intro h
    simp [CacheObject.delete, h]
  · intro fs' hd
    rcases delete_cases o fs with ⟨he, hq⟩ | ⟨he, msg, hr, hq⟩ | ⟨he, hr, hq⟩
    · rw [hq] at hd
      injection hd with h'
      subst h'
      exact ⟨he, hq⟩
    · rw [hq] at hd
      exact absurd hd (by simp)
    · rw [hq] at hd
      injection hd with h'
      subst h'
      have hfe : o.fileExists
          { fs with files := eraseReg o.path fs.files } = false := by
        show (lookupReg o.path (eraseReg o.path fs.files)).isSome = false
        rw [lookupReg_eraseReg_self]
        rfl
      exact ⟨hfe, by simp [CacheObject.delete, hfe]⟩

/-- C9, counterexample: a backing file that exists but cannot be
removed.  The first `delete()` fails with the propagated I/O error and
— the error return carrying no new filesystem — leaves the state
unchanged, so the immediate second call is the same computation and
fails identically, and `exists()` is still true after the failing call;
the claim said the second call never errors and `exists()` is false
after either call. -/
theorem c9_counterexample :
    objA.delete fsStuck =
      Except.error (.io (bytes "Permission denied (os error 13)")) ∧
    objA.fileExists fsStuck = true := ⟨rfl, rfl⟩

/-- C9, witness: the amended theorem applied to an absent file. -/
theorem c9_witness : objA.delete fsOk = Except.ok fsOk :=
  (c9_delete_idempotent objA fsOk).1 rfl

/-- C10: when the requested name fails validation, `create` returns
that `InvalidName` error and leaves the manager — registry and id
counter alike — and the filesystem exactly unchanged (validation runs
before the counter is touched or anything is inserted). -/
theorem c10_invalid_name_leaves_state (st : Cache) (name : List Nat)
    (cc : Option (Except (List Nat) CacheConfig)) (env : Env) (fs : FS)
    (e : CacheError) (he : validateName name = .error e) :
    Cache.create st name cc env fs = (.error e, st, fs) ∧
    ∃ m, e = CacheError.invalidName m := by
  constructor
  · simp only [Cache.create, he]
  · exact validateName_error_shape name e he

/-- C10, witness: creating with the empty name on a fresh manager. -/
theorem c10_witness :
    Cache.create (Cache.new CacheConfig.default) [] none envOk fsOk =
      (Except.error (.invalidName (bytes "Cache name cannot be empty")),
        Cache.new CacheConfig.default, fsOk) :=
  (c10_invalid_name_leaves_state (Cache.new CacheConfig.default) [] none
    envOk fsOk _ rfl).1

/-- C4 (amended): the id counter starts at 1; a call rejected by name
validation leaves the whole manager state unchanged; but every call
that passes name validation increments the `u32` counter (mod `2^32`) —
including calls that then fail with a `ConfigParse` or directory-creation
error, contrary to the claim that only successful creations increment
it.  A successful call returns the pre-call counter value as the id, so
ids issued by successful creations are strictly increasing (and never
reused) while the counter does not wrap. -/
theorem c4_id_counter (cfg : CacheConfig) (st : Cache) (name : List Nat)
    (cc : Option (Except (List Nat) CacheConfig)) (env : Env) (fs : FS) :
    (Cache.new cfg).nextId = 1 ∧
    (∀ e, validateName name = .error e →
      (Cache.create st name cc env fs).2.1 = st) ∧
    (validateName name = Except.ok () →
      (Cache.create st name cc env fs).2.1.nextId =
        (st.nextId + 1) % 4294967296) ∧
    (∀ o, (Cache.create st name cc env fs).1 = .ok o → o.id = st.nextId) := by
  refine ⟨rfl, ?_, ?_, ?_⟩
  · intro e he
    simp only [Cache.create, he]
  · intro hok
    unfold Cache.create
    rw [hok]
    rcases cc with _ | ce
    · dsimp only
      split <;> rfl
    · rcases ce with ce | cok
      · rfl
      · dsimp only
        split <;> rfl
  · intro o ho
    unfold Cache.create at ho
    cases hv : validateName name with
    | error e =>
      rw [hv] at ho
      exact absurd ho (by simp)
    | ok u =>
      cases u
      rw [hv] at ho
      rcases cc with _ | ce
      · dsimp only at ho
        split at ho
        · exact absurd ho (by simp)
        · injection ho with h'
          subst h'
          rfl
      · rcases ce with ce | cok
        · exact absurd ho (by simp)
        · dsimp only at ho
          split at ho
          · exact absurd ho (by simp)
          · injection ho with h'
            subst h'
            rfl

/-- C4, counterexample: on a fresh manager (counter 1), a `create` with
a valid name but a malformed override JSON returns a `ConfigParse`
error, yet the counter has moved to 2 — the claim said an erroring
creation leaves the counter unchanged. -/
theorem c4_counterexample :
    (Cache.create (Cache.new CacheConfig.default) (bytes "a")
        (some (.error (bytes "expected value at line 1 column 1")))
        envOk fsOk).1 =
      Except.error (.configParse (bytes "expected value at line 1 column 1")) ∧
    (Cache.create (Cache.new CacheConfig.default) (bytes "a")
        (some (.error (bytes "expected value at line 1 column 1")))
        envOk fsOk).2.1.nextId = 2 ∧
    (Cache.new CacheConfig.default).nextId = 1 := ⟨rfl, rfl, rfl⟩

/-- C4, witness: a validated call increments the counter. -/
theorem c4_witness :
    (Cache.create (Cache.new CacheConfig.default) (bytes "b") none envOk
        fsOk).2.1.nextId =
      ((Cache.new CacheConfig.default).nextId + 1) % 4294967296 :=
  (c4_id_counter CacheConfig.default (Cache.new CacheConfig.default)
    (bytes "b") none envOk fsOk).2.2.1 rfl

/-- C5: calling `create` again with an already-registered (valid) name
succeeds — no `AlreadyExists` error — and silently overwrites the
registry entry: afterwards the registry binds that name exactly once,
to the newly constructed object, and the filesystem (in particular the
prior entry's backing file) is untouched. -/
theorem c5_create_overwrites (st : Cache) (name : List Nat)
    (custom : Option CacheConfig) (env : Env) (fs : FS) (old : CacheObject)
    (_hreg : lookupReg name st.objects = some old)
    (hname : validateName name = Except.ok ())
    (hmkdir : ∀ p, env.mkdirResult p = none) :
    ∃ newObj : CacheObject,
      (Cache.create st name (custom.map Except.ok) env fs).1 = .ok newObj ∧
      (Cache.create st name (custom.map Except.ok) env fs).2.1.objects =
        insertReg name newObj st.objects ∧
      lookupReg name
        (Cache.create st name (custom.map Except.ok) env fs).2.1.objects =
        some newObj ∧
      countKey name
        (Cache.create st name (custom.map Except.ok) env fs).2.1.objects = 1 ∧
      (Cache.create st name (custom.map Except.ok) env fs).2.2 = fs := by
  have hmk := mkdirAt_none hmkdir
  unfold Cache.create
  rw [hname]
  rcases custom with _ | c
  · dsimp only [Option.map]
    rw [hmk]
    exact ⟨_, rfl, rfl, lookupReg_insertReg_self _ _ _,
      countKey_insertReg_self _ _ _, rfl⟩
  · dsimp only [Option.map]
    rw [hmk]
    exact ⟨_, rfl, rfl, lookupReg_insertReg_self _ _ _,
      countKey_insertReg_self _ _ _, rfl⟩

/-- C5, witness: re-creating the registered name `"a"` on `stA`. -/
theorem c5_witness :
    countKey (bytes "a")
      (Cache.create stA (bytes "a") none envOk fsA).2.1.objects = 1 := by
  obtain ⟨newObj, -, -, -, h4, -⟩ :=
    c5_create_overwrites stA (bytes "a") none envOk fsA objA rfl rfl
      (fun _ => rfl)
  exact h4

/-- C6: `clear()` empties the registry unconditionally (`len` becomes
0), attempts every entry's file deletion without short-circuiting
(every removable backing file is gone afterwards), succeeds exactly
when no deletion failed, and otherwise reports one aggregate `Generic`
error joining the individual failure messages with `"; "`.  A deletion
fails exactly when the entry's file exists and its removal fails, so
success is equivalent to every registered path being removable or
already absent. -/
theorem c6_clear_behavior (st : Cache) (fs : FS) :
    (Cache.clear st fs).2.1.objects = [] ∧
    Cache.len (Cache.clear st fs).2.1 = 0 ∧
    ((Cache.clear st fs).1 = Except.ok () ↔
      ∀ x ∈ st.objects,
        fs.removeResult x.2.path = none ∨ lookupFile fs x.2.path = none) ∧
    (∀ x ∈ st.objects, fs.removeResult x.2.path = none →
      lookupFile (Cache.clear st fs).2.2 x.2.path = none) ∧
    (¬(∀ x ∈ st.objects,
        fs.removeResult x.2.path = none ∨ lookupFile fs x.2.path = none) →
      ∃ msgs, msgs ≠ [] ∧
        (Cache.clear st fs).1 = Except.error (.generic
          (bytes "Errors occurred while clearing cache: " ++
            joinSep (bytes "; ") msgs))) := by
  refine ⟨?_, ?_, ?_, ?_, ?_⟩
  · unfold Cache.clear
    dsimp only
    split <;> rfl
  · unfold Cache.clear
    dsimp only
    split <;> rfl
  · refine Iff.trans ?_ (clearLoop_nil_iff st.objects fs)
    unfold Cache.clear
    dsimp only
    cases h : (clearLoop st.objects fs).1 with
    | nil => simp [h]
    | cons a t => simp [h]
  · intro x hx hr
    have ha := clearLoop_attempted st.objects fs x hx hr
    unfold Cache.clear
    dsimp only
    split <;> exact ha
  · intro hna
    have hnn : (clearLoop st.objects fs).1 ≠ [] := by
      intro hnil
      exact hna ((clearLoop_nil_iff st.objects fs).mp hnil)
    have hemp : (clearLoop st.objects fs).1.isEmpty = false := by
      cases hc : (clearLoop st.objects fs).1 with
      | nil => exact absurd hc hnn
      | cons a t => rfl
    refine ⟨(clearLoop st.objects fs).1, hnn, ?_⟩
    unfold Cache.clear
    dsimp only
    rw [hemp]
    rfl

/-- C6, witness: clearing the one-entry manager `stA` on the fully
operational filesystem `fsA` leaves `objA`'s backing file deleted. -/
theorem c6_witness : lookupFile (Cache.clear stA fsA).2.2 objA.path = none :=
  (c6_clear_behavior stA fsA).2.2.2.1 (bytes "a", objA) (by simp [stA]) rfl

end CacheLite
